import Mathlib

/-!
Verification of the navionguy/basicwasm front-end support packages against
their natural-language specification.  Each Go function the claims touch is
shallow-embedded as an executable Lean definition; machine strings are
modelled as Lean `String`/`List Char`, Go byte slices as `List Nat`, Go maps
as association lists, and Go's buffered channel as an explicit queue.
-/

namespace berrors

/- Error-code constants from berrors.go.  The Go source declares them with
`iota + 1` and explicit blank (`_`) gap slots; the values below are the exact
values that `iota` produces (the `// 60` and `// 70` comments in the source
drift off by one after `FileNotFound`, but the compiler counts every blank
line, giving `PermissionDenied = 71` and `PathNotFound = 77`). -/

def NextWithoutFor : Int := 1
def Syntax : Int := 2
def ReturnWoGosub : Int := 3
def OutOfData : Int := 4
def IllegalFuncCallErr : Int := 5
def Overflow : Int := 6
def OutOfMemory : Int := 7
def UnDefinedLineNumber : Int := 8
def SubscriptRange : Int := 9
def DuplicateDefinition : Int := 10
def DivByZero : Int := 11
def IllegalDirect : Int := 12
def TypeMismatch : Int := 13
def StringSpace : Int := 14
def String2Long : Int := 15
def StringForm2Complex : Int := 16
def CantContinue : Int := 17
def UndefinedFunction : Int := 18
def NoResume : Int := 19
def ResumeWoError : Int := 20
def Unprintable : Int := 21
def MissingOp : Int := 22
def LineOverflow : Int := 23
def DeviceTimeout : Int := 24
def DeviceFault : Int := 25
def ForWoNext : Int := 26
def OutOfPaper : Int := 27
def UnprintableErr : Int := 28
def WhileWoWend : Int := 29
def WendWoWhile : Int := 30
def FieldOverflow : Int := 50
def InternalErr : Int := 51
def BadFileNum : Int := 52
def FileNotFound : Int := 53
def PermissionDenied : Int := 71
def PathNotFound : Int := 77

/-- `TextForError` from berrors.go: the Go `switch` over the error number,
branch for branch, with the `default` returning `"Unprintable error"`. -/
def TextForError (err : Int) : String :=
  if err = CantContinue then "Can't continue"
  else if err = DivByZero then "Division by zero"
  else if err = FileNotFound then "File not found"
  else if err = IllegalDirect then "Illegal direct"
  else if err = NextWithoutFor then "NEXT without FOR"
  else if err = OutOfData then "Out of DATA"
  else if err = Overflow then "Overflow"
  else if err = ReturnWoGosub then "RETURN without GOSUB"
  else if err = Syntax then "Syntax error"
  else if err = TypeMismatch then "Type mismatch"
  else if err = UnDefinedLineNumber then "Undefined line number"
  else if err = PathNotFound then "Path not found"
  else "Unprintable error"

/-- The error codes that have a catalog entry in `TextForError`
(the cases of the Go `switch`), in switch order. -/
def catalogCodes : List Int :=
  [CantContinue, DivByZero, FileNotFound, IllegalDirect, NextWithoutFor,
   OutOfData, Overflow, ReturnWoGosub, Syntax, TypeMismatch,
   UnDefinedLineNumber, PathNotFound]

/-- C1: `TextForError` is a total function on integer error codes: every code
with a catalog entry maps to its canonical text (in particular
`TextForError DivByZero = "Division by zero"`), and every integer without a
catalog entry — the deliberate gap codes included — maps to
`"Unprintable error"` rather than failing. -/
theorem textForError_total_catalog :
    (TextForError DivByZero = "Division by zero" ∧
     TextForError CantContinue = "Can't continue" ∧
     TextForError FileNotFound = "File not found" ∧
     TextForError IllegalDirect = "Illegal direct" ∧
     TextForError NextWithoutFor = "NEXT without FOR" ∧
     TextForError OutOfData = "Out of DATA" ∧
     TextForError Overflow = "Overflow" ∧
     TextForError ReturnWoGosub = "RETURN without GOSUB" ∧
     TextForError Syntax = "Syntax error" ∧
     TextForError TypeMismatch = "Type mismatch" ∧
     TextForError UnDefinedLineNumber = "Undefined line number" ∧
     TextForError PathNotFound = "Path not found") ∧
    (∀ c : Int, c ∉ catalogCodes → TextForError c = "Unprintable error") := by
  refine ⟨by decide, ?_⟩
  intro c h
  simp only [catalogCodes, List.mem_cons, List.not_mem_nil, or_false, not_or] at h
  obtain ⟨h1, h2, h3, h4, h5, h6, h7, h8, h9, h10, h11, h12⟩ := h
  simp [TextForError, h1, h2, h3, h4, h5, h6, h7, h8, h9, h10, h11, h12]

/-- Witness for C1's default branch: the deliberate gap code 31 and the
`Unprintable` code itself (which has no switch case) both render as
`"Unprintable error"`. -/
theorem textForError_default_witness :
    TextForError 31 = "Unprintable error" ∧
    TextForError Unprintable = "Unprintable error" :=
  ⟨textForError_total_catalog.2 31 (by decide),
   textForError_total_catalog.2 Unprintable (by decide)⟩

end berrors

namespace fileserv

/-- Go's `strings.Split(s, sep)` for a one-character separator, on the
rune level: splitting the empty string gives `[[]]`, and every separator
occurrence opens a new (possibly empty) segment. -/
def splitOnChar (sep : Char) : List Char → List (List Char)
  | [] => [[]]
  | c :: rest =>
    let r := splitOnChar sep rest
    if c = sep then [] :: r else (c :: r.headD []) :: r.tail

theorem splitOnChar_ne_nil (sep : Char) (l : List Char) : splitOnChar sep l ≠ [] := by
  cases l with
  | nil => simp [splitOnChar]
  | cons c rest =>
    by_cases hc : c = sep <;> simp [splitOnChar, hc]

theorem splitOnChar_no_sep (sep : Char) (l : List Char) (h : sep ∉ l) :
    splitOnChar sep l = [l] := by
  induction l with
  | nil => rfl
  | cons c rest ih =>
    simp only [List.mem_cons, not_or] at h
    have hc : ¬ c = sep := fun hceq => h.1 hceq.symm
    simp [splitOnChar, hc, ih h.2]

theorem splitOnChar_append (sep : Char) (l1 l2 : List Char) (h : sep ∉ l1) :
    splitOnChar sep (l1 ++ sep :: l2) = l1 :: splitOnChar sep l2 := by
  induction l1 with
  | nil => simp [splitOnChar]
  | cons c rest ih =>
    simp only [List.mem_cons, not_or] at h
    have hc : ¬ c = sep := fun hceq => h.1 hceq.symm
    simp [splitOnChar, hc, ih h.2]

/-- `containsDotFile` from fileserv.go: reports whether the slash-delimited
name has a path element starting with a period.  Go's
`strings.HasPrefix(part, ".")` is exactly `part.take 1 = ['.']`. -/
def containsDotFile (name : String) : Bool :=
  (splitOnChar '/' name.data).any (fun part => part.take 1 = ['.'])

/-- The names `sendDirectory` (fileserv.go) passes to the file list it
serializes as the JSON response: every `Readdir` entry whose name does not
contain a dot path element.  (The `filelist` collaborator serializes exactly
the entries added to it, as the repository's tests record.) -/
def sendDirectoryNames (files : List String) : List String :=
  files.filter (fun n => !containsDotFile n)

/-- Left-justify in a field of `n` characters after truncating to at most
`n` characters: Go's `fmt.Sprintf("%-n.ns", s)` verb. -/
def leftJust (n : Nat) (s : List Char) : List Char :=
  s.take n ++ List.replicate (n - (s.take n).length) ' '

theorem leftJust_length (n : Nat) (s : List Char) : (leftJust n s).length = n := by
  simp only [leftJust, List.length_append, List.length_take, List.length_replicate]
  omega

/-- `formatBaseName` from fileserv.go: a base name longer than eight
characters keeps its first seven with a `'+'` in the eighth position. -/
def formatBaseName (name : List Char) : List Char :=
  if name.length > 8 then name.take 7 ++ ['+'] else name

/-- `formatExtension` from fileserv.go: trim the extension (the part after
the first period) to at most three characters. -/
def formatExtension (ext : List Char) : List Char :=
  if ext.length > 3 then ext.take 3 else ext

/-- `setDirTag` from fileserv.go. -/
def setDirTag (isDir : Bool) : List Char :=
  if isDir then ['<', 'd', 'i', 'r', '>'] else [' ', ' ', ' ', ' ']

/-- The body of `FormatFileName` from fileserv.go on the rune level: split
the name on periods, supply a one-blank extension when there is none, and
render `fmt.Sprintf("%-8.8s.%-3.3s%s", formatBaseName(prts[0]),
formatExtension(prts[1]), setDirTag(isDir))`. -/
def formatFileNameCore (name : List Char) (isDir : Bool) : List Char :=
  let prts := splitOnChar '.' name
  let prts := if prts.length = 1 then prts ++ [[' ']] else prts
  leftJust 8 (formatBaseName (prts.headD [])) ++
    '.' :: (leftJust 3 (formatExtension ((prts.drop 1).headD [])) ++ setDirTag isDir)

/-- `FormatFileName` from fileserv.go: force a file name into 8.3 display form. -/
def FormatFileName (name : String) (isDir : Bool) : String :=
  ⟨formatFileNameCore name.data isDir⟩

/-- C2 counterexample: the claim that every `FormatFileName` output is 17
characters wide fails already at `FormatFileName "basic" false`, whose output
(`"basic   .       "`, the repository test's own golden value) is 16
characters: the non-directory tag is four spaces, one narrower than
`"<dir>"`. -/
theorem formatFileName_width_counterexample :
    ¬ (FormatFileName "basic" false).length = 17 := by decide

/-- C2 (amended): the width of `FormatFileName name isDir` does not depend on
the name, but it does depend on the directory flag: it is 17 characters for a
directory and 16 characters otherwise. -/
theorem formatFileName_length (name : String) (isDir : Bool) :
    (FormatFileName name isDir).length = if isDir then 17 else 16 := by
  have hcore :
      (FormatFileName name isDir).length = (formatFileNameCore name.data isDir).length := rfl
  rw [hcore]
  unfold formatFileNameCore
  cases isDir <;>
    simp [leftJust_length, setDirTag, List.length_append]

/-- C3 counterexample: the directory filter is not "last path segment starts
with a period": the repository test input `"html/../main.html"` has a last
segment `"main.html"` that does not start with a period, yet the name is
omitted from the listing because its middle segment `".."` does. -/
theorem dirListing_lastSegment_counterexample :
    sendDirectoryNames ["html/../main.html"] = [] ∧
    ¬ ((splitOnChar '/' "html/../main.html".data).getLastD []).take 1 = ['.'] := by
  decide

/-- C3 (amended): a name is kept in the emitted directory listing iff it is
one of the directory's entries and none of its slash-delimited path segments
starts with a period (so a name is excluded iff some segment — not
necessarily the last — begins with `'.'`). -/
theorem dirListing_filter_spec (files : List String) (name : String) :
    name ∈ sendDirectoryNames files ↔
      name ∈ files ∧ ∀ part ∈ splitOnChar '/' name.data, ¬ part.take 1 = ['.'] := by
  simp [sendDirectoryNames, containsDotFile, List.mem_filter]

/-- C6: the three golden renderings of `FormatFileName` from the spec (and
the repository's own tests): an extensionless short name pads to a blank
extension, a long base name keeps seven characters plus `'+'` and the
extension truncates to three characters, and a directory gets the `<dir>`
tag. -/
theorem formatFileName_golden :
    FormatFileName "basic" false = "basic   .       " ∧
    FormatFileName "longername.basic" false = "longern+.bas    " ∧
    FormatFileName "exactly8.bas" true = "exactly8.bas<dir>" := by
  decide

/-- C10: when a name contains at least two periods — written here as
`a ++ "." ++ b ++ "." ++ c` with `a` the base name and `b` the segment
between the first and second periods — the rendered extension field is `b`
truncated to three characters, and everything after the second period (`c`)
is discarded: the output does not depend on `c` at all. -/
theorem formatFileName_extension_spec (name : String) (isDir : Bool)
    (a b c : List Char)
    (hdecomp : name.data = a ++ '.' :: (b ++ '.' :: c))
    (ha : '.' ∉ a) (hb : '.' ∉ b) :
    FormatFileName name isDir =
      ⟨leftJust 8 (formatBaseName a) ++
        '.' :: (leftJust 3 (formatExtension b) ++ setDirTag isDir)⟩ := by
  refine congrArg String.mk ?_
  have hsplit : splitOnChar '.' name.data = a :: b :: splitOnChar '.' c := by
    rw [hdecomp, splitOnChar_append _ _ _ ha, splitOnChar_append _ _ _ hb]
  unfold formatFileNameCore
  rw [hsplit]
  simp

/-- Witness for C10: `"prog.bas.tmp"` renders with extension `"bas"`; the
trailing `".tmp"` part is dropped. -/
theorem formatFileName_extension_witness :
    FormatFileName "prog.bas.tmp" false = "prog    .bas    " :=
  (formatFileName_extension_spec "prog.bas.tmp" false
      "prog".data "bas".data "tmp".data (by decide) (by decide) (by decide)).trans
    (by decide)

end fileserv

namespace token

/- token.go: `TokenType` is a string type; the keyword constants carry their
upper-case spelling as value. -/

abbrev TokenType := String

def ILLEGAL : TokenType := "ILLEGAL"
def IDENT : TokenType := "IDENT"
def ALL : TokenType := "ALL"
def AUTO : TokenType := "AUTO"
def BEEP : TokenType := "BEEP"
def CHAIN : TokenType := "CHAIN"
def CLEAR : TokenType := "CLEAR"
def CLS : TokenType := "CLS"
def COLOR : TokenType := "COLOR"
def COMMON : TokenType := "COMMON"
def CONT : TokenType := "CONT"
def CSRLIN : TokenType := "CSRLIN"
def DATA : TokenType := "DATA"
def DEF : TokenType := "DEF"
def DIM : TokenType := "DIM"
def ELSE : TokenType := "ELSE"
def END : TokenType := "END"
def FALSE : TokenType := "FALSE"
def FILES : TokenType := "FILES"
def GOSUB : TokenType := "GOSUB"
def GOTO : TokenType := "GOTO"
def IF : TokenType := "IF"
def LET : TokenType := "LET"
def LIST : TokenType := "LIST"
def LOAD : TokenType := "LOAD"
def LOCATE : TokenType := "LOCATE"
def MERGE : TokenType := "MERGE"
def MOD : TokenType := "MOD"
def NEW : TokenType := "NEW"
def PALETTE : TokenType := "PALETTE"
def PRINT : TokenType := "PRINT"
def READ : TokenType := "READ"
def REM : TokenType := "REM"
def RESTORE : TokenType := "RESTORE"
def RETURN : TokenType := "RETURN"
def RUN : TokenType := "RUN"
def SCREEN : TokenType := "SCREEN"
def STOP : TokenType := "STOP"
def THEN : TokenType := "THEN"
def TRON : TokenType := "TRON"
def TROFF : TokenType := "TROFF"
def TRUE : TokenType := "TRUE"
def USING : TokenType := "USING"

/-- The closed `keywords` map of token.go (lower-case spelling → keyword
token type), as an association list. -/
def keywords : List (String × TokenType) :=
  [("all", ALL), ("auto", AUTO), ("beep", BEEP), ("chain", CHAIN),
   ("clear", CLEAR), ("cls", CLS), ("color", COLOR), ("common", COMMON),
   ("cont", CONT), ("csrlin", CSRLIN), ("data", DATA), ("def", DEF),
   ("dim", DIM), ("else", ELSE), ("end", END), ("false", FALSE),
   ("files", FILES), ("gosub", GOSUB), ("goto", GOTO), ("if", IF),
   ("let", LET), ("list", LIST), ("load", LOAD), ("locate", LOCATE),
   ("merge", MERGE), ("mod", MOD), ("new", NEW), ("palette", PALETTE),
   ("print", PRINT), ("read", READ), ("rem", REM), ("restore", RESTORE),
   ("return", RETURN), ("run", RUN), ("screen", SCREEN), ("stop", STOP),
   ("then", THEN), ("tron", TRON), ("troff", TROFF), ("true", TRUE),
   ("using", USING)]

/-- Go's `strings.ToLower` on one rune, restricted to the ASCII case fold:
upper-case ASCII letters map to their lower-case counterparts.  The keyword
set and its casings are pure ASCII, where this agrees with Go's full Unicode
case table. -/
def lowerChar (c : Char) : Char :=
  if 65 ≤ c.toNat ∧ c.toNat ≤ 90 then Char.ofNat (c.toNat + 32) else c

/-- Go's `strings.ToLower`: lower-case every rune. -/
def lowerStr (s : String) : String :=
  ⟨s.data.map lowerChar⟩

/-- `LookupIdent` from token.go: look the lower-cased identifier up in the
keyword map and fall back to `IDENT`. -/
def LookupIdent (ident : String) : TokenType :=
  match keywords.lookup (lowerStr ident) with
  | some t => t
  | none => IDENT

theorem lookup_eq_of_mem_nodup {l : List (String × TokenType)} {k : String}
    {v : TokenType} (hnd : (l.map Prod.fst).Nodup) (hmem : (k, v) ∈ l) :
    l.lookup k = some v := by
  induction l with
  | nil => cases hmem
  | cons p t ih =>
    obtain ⟨k', v'⟩ := p
    simp only [List.map_cons, List.nodup_cons, List.mem_map] at hnd
    rcases List.mem_cons.mp hmem with heq | htl
    · injection heq with hk hv
      subst hk; subst hv
      simp [List.lookup]
    · have hne : ¬ (k == k') = true := by
        intro hbeq
        rw [beq_iff_eq] at hbeq
        subst hbeq
        exact hnd.1 ⟨(k, v), htl, rfl⟩
      simp only [List.lookup, hne]
      exact ih hnd.2 htl

theorem lookup_eq_none_of_not_mem {l : List (String × TokenType)} {k : String}
    (h : ∀ p ∈ l, ¬ k = p.1) : l.lookup k = none := by
  induction l with
  | nil => rfl
  | cons p t ih =>
    have hne : ¬ (k == p.1) = true := by
      intro hbeq
      exact h p (List.mem_cons_self p t) (beq_iff_eq.mp hbeq)
    simp only [List.lookup, hne]
    exact ih fun q hq => h q (List.mem_cons_of_mem p hq)

/-- C5: keyword recognition is case-insensitive over the closed keyword set:
every string whose lower-casing is a keyword spelling maps to that keyword's
token type (so all casings of one keyword agree), and every string whose
lower-casing is not a keyword spelling maps to the identifier type `IDENT`. -/
theorem lookupIdent_spec :
    (∀ (s : String) (kw : String) (ty : TokenType),
        (kw, ty) ∈ keywords → lowerStr s = kw → LookupIdent s = ty) ∧
    (∀ s : String, (∀ p ∈ keywords, ¬ lowerStr s = p.1) → LookupIdent s = IDENT) := by
  constructor
  · intro s kw ty hmem heq
    unfold LookupIdent
    rw [heq, lookup_eq_of_mem_nodup (by decide) hmem]
  · intro s h
    unfold LookupIdent
    rw [lookup_eq_none_of_not_mem h]

/-- Witness for C5: the casings `Print`, `PRINT`, `print` all resolve to the
`PRINT` keyword type, and the non-keyword `foobar` resolves to `IDENT`. -/
theorem lookupIdent_witness :
    LookupIdent "Print" = PRINT ∧ LookupIdent "PRINT" = PRINT ∧
    LookupIdent "print" = PRINT ∧ LookupIdent "foobar" = IDENT :=
  ⟨lookupIdent_spec.1 "Print" "print" PRINT (by decide) (by decide),
   lookupIdent_spec.1 "PRINT" "print" PRINT (by decide) (by decide),
   lookupIdent_spec.1 "print" "print" PRINT (by decide) (by decide),
   lookupIdent_spec.2 "foobar" (by decide)⟩

end token

namespace parser

/- `parseCommaSperatedExpressions` (the repository's parser package) consumes
tokens through a current-token / peek-token window, exactly as the Go parser
does.  The loop itself is in the source; the helpers it calls
(`chkEndOfStatement`, `parseExpression`) are not, and are modelled from the
spec below. -/

inductive Tok where
  | ident (name : String)
  | comma
  | colon
  | eol
  | eof
deriving DecidableEq, BEq

/-- An elided positional argument is a Go `nil` expression; present
expressions here are the identifier atoms the claim's examples use, so a
parsed element is an `Option` of an identifier name. -/
abbrev Expression := String

structure Parser where
  curToken : Tok
  peekToken : Tok
  rest : List Tok
  errors : List Int
deriving DecidableEq

def nextToken (p : Parser) : Parser :=
  { p with
    curToken := p.peekToken
    peekToken := p.rest.headD Tok.eof
    rest := p.rest.tail }

def curTokenIs (p : Parser) (t : Tok) : Bool := p.curToken = t

def peekTokenIs (p : Parser) (t : Tok) : Bool := p.peekToken = t

def reportError (p : Parser) (code : Int) : Parser :=
  { p with errors := p.errors ++ [code] }

/-- Modelled from the spec: `chkEndOfStatement` is not under src/ (only its
caller is).  §4.4: "End-of-statement detection must treat end-of-line,
end-of-input, and the statement separator as equally valid terminators"; the
caller tests it after an expression has been consumed, so it looks at the
next unconsumed token. -/
def chkEndOfStatement (p : Parser) : Bool :=
  peekTokenIs p Tok.eol || peekTokenIs p Tok.eof || peekTokenIs p Tok.colon

/-- Modelled from the spec: `parseExpression` (the Pratt expression parser)
is not under src/.  The claim's inputs only need identifier atoms; a parsed
expression leaves the current token on its last token. -/
def parseExpression (p : Parser) : Option Expression :=
  match p.curToken with
  | Tok.ident n => some n
  | _ => none

/-- `parseNextExpression` from the parser source: a comma in current
position means the user skipped this parameter, so the element is `nil`
(`none`); otherwise parse the expression. -/
def parseNextExpression (p : Parser) : Option Expression :=
  if curTokenIs p Tok.comma then none else parseExpression p

/-- One pass of the `for ; !done; p.nextToken()` loop body of
`parseCommaSperatedExpressions`, driven by fuel (the Go loop terminates
because every iteration consumes tokens); the loop's post-statement
`p.nextToken()` also runs once more after `done` turns true. -/
def parseCSEAux : Nat → Parser → List (Option Expression) →
    Parser × List (Option Expression)
  | 0, p, acc => (p, acc)
  | fuel + 1, p, acc =>
    let acc := acc ++ [parseNextExpression p]
    let p := if peekTokenIs p Tok.comma then nextToken p else p
    let done := chkEndOfStatement p
    let p := if done && curTokenIs p Tok.comma then reportError p berrors.Syntax else p
    if done then (nextToken p, acc) else parseCSEAux fuel (nextToken p) acc

/-- `parseCommaSperatedExpressions`, started on a statement's token stream
(current token = first token of the list). -/
def parseCommaSperatedExpressions (toks : List Tok) :
    Parser × List (Option Expression) :=
  let p : Parser :=
    { curToken := toks.headD Tok.eof
      peekToken := (toks.drop 1).headD Tok.eof
      rest := toks.drop 2
      errors := [] }
  parseCSEAux (toks.length + 1) p []

/-- C4: in a comma-separated expression list, a comma not preceded by an
expression produces a present-but-`nil` element rather than a parse error:
`A,,B` parses to three positions with the middle one `none` and no reported
error, while a trailing bare comma at statement end (`A,B,`) reports the
`Syntax` error code. -/
theorem commaList_elision_and_trailing_comma :
    (parseCommaSperatedExpressions
        [Tok.ident "A", Tok.comma, Tok.comma, Tok.ident "B"]).2 =
      [some "A", none, some "B"] ∧
    (parseCommaSperatedExpressions
        [Tok.ident "A", Tok.comma, Tok.comma, Tok.ident "B"]).1.errors = [] ∧
    (parseCommaSperatedExpressions
        [Tok.ident "A", Tok.comma, Tok.ident "B", Tok.comma]).1.errors =
      [berrors.Syntax] := by
  decide

end parser

namespace keybuffer

/- keybuffer.go.  Bytes are `Nat` values below 256; the buffered
`chan []byte` is modelled as an explicit queue (`none` = the channel has not
been created yet); Go maps are association lists read with an empty-string
default, as a missing Go map key yields the zero value. -/

/-- Modelled from the spec: `ast.KeySettings` is not under src/.  §3: "Key
Settings — mapping from function-key label (`F1`…`F14`) to a macro string";
the source reads it as `KeySettings.Keys[label]`. -/
structure KeySettings where
  Keys : List (String × String)
deriving DecidableEq

structure KeyBuffer where
  keySettings : Option KeySettings
  keycodes : Option (List (List Nat))
  inp : List Nat
  ind : Nat
  sig_break : Bool
deriving DecidableEq

/-- The `spcKeys` table that `GetKeyBuffer` builds: the hex encoding of each
of the 14 fixed escape sequences (f1Key…f14Key from keybuffer.go) mapped to
its `F1`…`F14` label. -/
def spcKeys : List (String × String) :=
  [("1b4f50", "F1"), ("1b4f51", "F2"), ("1b4f52", "F3"), ("1b4f53", "F4"),
   ("1b5b31357e", "F5"), ("1b5b31377e", "F6"), ("1b5b31387e", "F7"),
   ("1b5b31397e", "F8"), ("1b5b32307e", "F9"), ("1b5b32317e", "F10"),
   ("1b5b41", "F11"), ("1b5b44", "F12"), ("1b5b43", "F13"), ("1b5b42", "F14")]

/-- Go map read `m[k]` for a `map[string]string`: the zero value `""` when
the key is absent. -/
def mapGetD (m : List (String × String)) (k : String) : String :=
  match m.lookup k with
  | some v => v
  | none => ""

def hexDigit (n : Nat) : Char :=
  if n < 10 then Char.ofNat (48 + n) else Char.ofNat (87 + n)

/-- `hex.EncodeToString`: two lower-case hex digits per byte. -/
def hexEncodeToString (bs : List Nat) : String :=
  ⟨(bs.map (fun b => [hexDigit (b / 16 % 16), hexDigit (b % 16)])).flatten⟩

/-- The UTF-8 bytes of `[]byte(s)`; the macro strings the claims touch are
ASCII, where code points and bytes coincide. -/
def strBytes (s : String) : List Nat := s.data.map Char.toNat

/-- `checkForSpecialKeys` from keybuffer.go: with no key settings the
keystroke maps to `[]byte("")`; otherwise the escape sequence's hex encoding
is looked up among the 14 special keys and the resulting label is looked up
in the user's macro map, missing entries giving the empty string. -/
def checkForSpecialKeys (buff : KeyBuffer) (inp : List Nat) : List Nat :=
  match buff.keySettings with
  | none => []
  | some ks => strBytes (mapGetD ks.Keys (mapGetD spcKeys (hexEncodeToString inp)))

/-- `checkForCtrlC` from keybuffer.go: any `0x03` byte in the keystroke sets
the break flag. -/
def checkForCtrlC (buff : KeyBuffer) (inp : List Nat) : KeyBuffer :=
  if inp.contains 3 then { buff with sig_break := true } else buff

/-- The escape-sequence check of `SaveKeyStroke`: a keystroke of more than
one byte starting with `0x1b` is replaced by its configured translation;
anything else passes through unchanged. -/
def translateKey (buff : KeyBuffer) (key : List Nat) : List Nat :=
  if key.length > 1 && decide (key.headD 0 = 0x1b)
  then checkForSpecialKeys buff key else key

/-- The tail of `SaveKeyStroke`: an empty byte array is dropped; otherwise
the bytes are written to the channel and scanned for Ctrl-C. -/
def queueKey (buff : KeyBuffer) (key : List Nat) : KeyBuffer :=
  if key = [] then buff
  else
    checkForCtrlC { buff with keycodes := some ((buff.keycodes.getD []) ++ [key]) } key

/-- `SaveKeyStroke` from keybuffer.go: create the channel on first use,
translate escape sequences through the macro table, drop the keystroke
entirely when that leaves no bytes, and otherwise queue the bytes and scan
them for Ctrl-C.  (The Go channel holds up to 20 pending keystrokes; the
queue here is unbounded, which does not affect which bytes are queued or when
the break flag is set.) -/
def SaveKeyStroke (buff : KeyBuffer) (key : List Nat) : KeyBuffer :=
  let buff := if buff.keycodes = none then { buff with keycodes := some [] } else buff
  queueKey buff (translateKey buff key)

/-- `BreakSeen` from keybuffer.go (its 15ms settling sleep is timing, not
state, and is elided). -/
def BreakSeen (buff : KeyBuffer) : Bool := buff.sig_break

/-- `ClearBreak` from keybuffer.go. -/
def ClearBreak (buff : KeyBuffer) : KeyBuffer := { buff with sig_break := false }

/-- `ReadByte` from keybuffer.go: continue a partially consumed keystroke if
one is in hand, otherwise poll the channel (`select` with a `default`
branch), never waiting; the "no data" error return is modelled as `none`. -/
def ReadByte (buff : KeyBuffer) : Option Nat × KeyBuffer :=
  if buff.ind < buff.inp.length then
    (some (buff.inp.getD buff.ind 0), { buff with ind := buff.ind + 1 })
  else
    match buff.keycodes with
    | none => (none, buff)
    | some [] => (none, buff)
    | some (front :: rest) =>
      (some (front.headD 0), { buff with keycodes := some rest, inp := front, ind := 1 })

/-- The macro text configured for a keystroke: empty when no key settings
exist at all, and also when the sequence's label has no entry in the user's
macro map. -/
def configuredText (buff : KeyBuffer) (key : List Nat) : String :=
  match buff.keySettings with
  | none => ""
  | some ks => mapGetD ks.Keys (mapGetD spcKeys (hexEncodeToString key))

theorem checkForSpecialKeys_eq_configured (b : KeyBuffer) (key : List Nat) :
    checkForSpecialKeys b key = strBytes (configuredText b key) := by
  cases h : b.keySettings <;>
    simp [checkForSpecialKeys, configuredText, h, strBytes]

theorem queueKey_sig_break (b : KeyBuffer) (key : List Nat) :
    (queueKey b key).sig_break = (b.sig_break || key.contains 3) := by
  unfold queueKey checkForCtrlC
  by_cases hnil : key = []
  · simp [hnil]
  · simp only [if_neg hnil]
    by_cases h3 : 3 ∈ key <;> simp [h3]

theorem saveKeyStroke_sig_break (b : KeyBuffer) (key : List Nat) :
    (SaveKeyStroke b key).sig_break =
      (b.sig_break || (translateKey b key).contains 3) := by
  unfold SaveKeyStroke
  by_cases hch : b.keycodes = none <;>
    simp only [hch, if_true, if_false] <;>
    (rw [queueKey_sig_break]; try rfl)

/-- C7: `ReadByte` never waits: with no unconsumed bytes in hand and an
uncreated or empty channel it returns the "no data" error (`none`) on the
unchanged buffer; with a partially consumed keystroke in hand it returns the
next byte of it; with bytes waiting on the channel it returns the first byte
of the next keystroke.  In every case it returns immediately — the function
is total. -/
theorem readByte_nonblocking (b : KeyBuffer) :
    (b.inp.length ≤ b.ind → b.keycodes = none ∨ b.keycodes = some [] →
        ReadByte b = (none, b)) ∧
    (b.ind < b.inp.length →
        (ReadByte b).1 = some (b.inp.getD b.ind 0) ∧
        (ReadByte b).2.ind = b.ind + 1) ∧
    (∀ front rest, b.inp.length ≤ b.ind → b.keycodes = some (front :: rest) →
        (ReadByte b).1 = some (front.headD 0)) := by
  refine ⟨?_, ?_, ?_⟩
  · intro hle hch
    unfold ReadByte
    rw [if_neg (by omega)]
    rcases hch with h | h <;> rw [h]
  · intro hlt
    unfold ReadByte
    rw [if_pos hlt]
    exact ⟨rfl, rfl⟩
  · intro front rest hle hch
    unfold ReadByte
    rw [if_neg (by omega), hch]

/-- Witness for C7: reading from a buffer with nothing available (no partial
keystroke, channel never created) reports "no data" at once; reading with a
partial keystroke in hand yields its next byte; reading with a queued
keystroke yields that keystroke's first byte. -/
theorem readByte_nonblocking_witness :
    ReadByte ⟨none, none, [], 0, false⟩ = (none, ⟨none, none, [], 0, false⟩) ∧
    (ReadByte ⟨none, some [], [65, 66], 1, false⟩).1 = some 66 ∧
    (ReadByte ⟨none, some [[67, 68]], [65], 1, false⟩).1 = some 67 :=
  ⟨(readByte_nonblocking _).1 (by decide) (Or.inl rfl),
   ((readByte_nonblocking _).2.1 (by decide)).1,
   (readByte_nonblocking _).2.2 [67, 68] [] (by decide) rfl⟩

/-- C8: the session break flag is governed exactly by `0x03` bytes in the
queued (post-translation) keystrokes: enqueuing bytes that contain `0x03`
sets the flag; enqueuing bytes without `0x03` leaves it untouched;
`BreakSeen` reports the flag; `SaveKeyStroke` never lowers it and `ReadByte`
never changes it, so once set it stays set until `ClearBreak` resets it. -/
theorem break_flag_spec (b : KeyBuffer) (key : List Nat) :
    ((translateKey b key).contains 3 = true →
        (SaveKeyStroke b key).sig_break = true) ∧
    ((translateKey b key).contains 3 = false →
        (SaveKeyStroke b key).sig_break = b.sig_break) ∧
    BreakSeen b = b.sig_break ∧
    (b.sig_break = true → (SaveKeyStroke b key).sig_break = true) ∧
    (ReadByte b).2.sig_break = b.sig_break ∧
    (ClearBreak b).sig_break = false := by
  refine ⟨?_, ?_, rfl, ?_, ?_, rfl⟩
  · intro h; rw [saveKeyStroke_sig_break, h, Bool.or_true]
  · intro h; rw [saveKeyStroke_sig_break, h, Bool.or_false]
  · intro h; rw [saveKeyStroke_sig_break, h, Bool.true_or]
  · unfold ReadByte
    by_cases hlt : b.ind < b.inp.length
    · rw [if_pos hlt]
    · rw [if_neg hlt]
      cases hk : b.keycodes with
      | none => rfl
      | some q => cases q <;> rfl

/-- Witness for C8: a Ctrl-C keystroke raises the flag; a plain keystroke
leaves it down; `ClearBreak` then lowers a raised flag. -/
theorem break_flag_witness :
    (SaveKeyStroke ⟨none, none, [], 0, false⟩ [3]).sig_break = true ∧
    (SaveKeyStroke ⟨none, none, [], 0, false⟩ [65]).sig_break = false ∧
    (ClearBreak ⟨none, none, [], 0, true⟩).sig_break = false :=
  ⟨(break_flag_spec ⟨none, none, [], 0, false⟩ [3]).1 (by decide),
   (break_flag_spec ⟨none, none, [], 0, false⟩ [65]).2.1 (by decide),
   (break_flag_spec ⟨none, none, [], 0, true⟩ [65]).2.2.2.2.2⟩

/-- C9: an escape sequence (length > 1, first byte `0x1b`) with no
configured macro text — including when no key settings exist at all — queues
zero bytes: the buffer is returned unchanged except that an uncreated
channel is created empty, and the next `ReadByte` observes exactly what it
would have observed before the keystroke. -/
theorem drop_unmapped_escape (b : KeyBuffer) (key : List Nat)
    (hlen : 1 < key.length) (hesc : key.headD 0 = 0x1b)
    (hcfg : configuredText b key = "") :
    SaveKeyStroke b key =
      (if b.keycodes = none then { b with keycodes := some [] } else b) ∧
    (ReadByte (SaveKeyStroke b key)).1 = (ReadByte b).1 := by
  have hd1 : decide (key.length > 1) = true := decide_eq_true hlen
  have hd2 : decide (key.headD 0 = 0x1b) = true := decide_eq_true hesc
  have hcs : checkForSpecialKeys b key = [] := by
    rw [checkForSpecialKeys_eq_configured, hcfg]
    rfl
  have htr : translateKey b key = [] := by
    unfold translateKey
    rw [hd1, hd2, hcs]
    rfl
  have hstep : SaveKeyStroke b key =
      (if b.keycodes = none then { b with keycodes := some [] } else b) := by
    unfold SaveKeyStroke
    by_cases hch : b.keycodes = none
    · rw [if_pos hch]
      show queueKey { b with keycodes := some [] }
          (translateKey { b with keycodes := some [] } key)
        = { b with keycodes := some [] }
      rw [show translateKey { b with keycodes := some [] } key
            = translateKey b key from rfl, htr]
      rfl
    · rw [if_neg hch]
      show queueKey b (translateKey b key) = b
      rw [htr]
      rfl
  refine ⟨hstep, ?_⟩
  rw [hstep]
  by_cases hch : b.keycodes = none
  · rw [if_pos hch]
    unfold ReadByte
    by_cases hlt : b.ind < b.inp.length <;> simp [hlt, hch]
  · rw [if_neg hch]

/-- Witness for C9: with key settings present but no macro bound to `F1`,
the `F1` escape sequence `1b 4f 50` queues nothing, and a subsequent read
still reports "no data". -/
theorem drop_unmapped_escape_witness :
    SaveKeyStroke ⟨some ⟨[("F2", "files")]⟩, none, [], 0, false⟩ [27, 79, 80] =
      ⟨some ⟨[("F2", "files")]⟩, some [], [], 0, false⟩ ∧
    (ReadByte (SaveKeyStroke ⟨some ⟨[("F2", "files")]⟩, none, [], 0, false⟩
        [27, 79, 80])).1 = none :=
  ⟨((drop_unmapped_escape ⟨some ⟨[("F2", "files")]⟩, none, [], 0, false⟩
        [27, 79, 80] (by decide) (by decide) (by decide)).1).trans (by decide),
   ((drop_unmapped_escape ⟨some ⟨[("F2", "files")]⟩, none, [], 0, false⟩
        [27, 79, 80] (by decide) (by decide) (by decide)).2).trans (by decide)⟩

end keybuffer
